import Mathlib

/-!
Shallow embedding of the retrieval-augmented-generation pipeline of the
`podcast-poc` repository, centred on
`src/services/highQualityRAG.service.js` and `src/utils/textSplitter.js`.

JavaScript numbers are modelled as `ℚ` (or `Int`/`Nat` where the source only
ever holds integers), JS `Map` as an insertion-ordered association list,
thrown exceptions as `Except`, and external network calls as explicit
function parameters (oracles).  Counts of external calls are returned
alongside results so that "how many times was the endpoint invoked" is a
provable statement.
-/

namespace PodcastPoc

/-- An embedding vector (`number[]` in the source). -/
abbrev Vec := List ℚ

/-- The static configuration object built in the `HighQualityRAGService`
constructor (source lines 14–27). -/
structure RAGConfig where
  embeddingModel : String
  embeddingDimensions : Int
  chatModel : String
  chunkSize : Int
  chunkOverlap : Int
  temperature : ℚ
  maxTokens : Int
  topK : Nat
  similarityThreshold : ℚ
  batchSize : Nat
  maxRetries : Nat
  retryDelay : Nat
deriving DecidableEq

/-- `this.config` of `HighQualityRAGService` (source lines 14–27). -/
def ragConfig : RAGConfig :=
  { embeddingModel := "text-embedding-3-large"
  , embeddingDimensions := 3072
  , chatModel := "gpt-4o-mini"
  , chunkSize := 800
  , chunkOverlap := 200
  , temperature := 0.2
  , maxTokens := 4000
  , topK := 10
  , similarityThreshold := 0.7
  , batchSize := 5
  , maxRetries := 3
  , retryDelay := 1000 }

/-! ### `generateHash` (service lines 742–751)

JS bitwise operations coerce to 32-bit signed integers; `toInt32` is that
coercion on mathematical integers. -/

/-- Wrap an integer to the 32-bit signed range, as JS `| 0` / `& n` does. -/
def toInt32 (n : Int) : Int := (n + 2 ^ 31) % 2 ^ 32 - 2 ^ 31

/-- One step of the rolling hash:
`hash = ((hash << 5) - hash) + charCode; hash = hash & hash`. -/
def hashStep (h : Int) (c : Nat) : Int := toInt32 (toInt32 (h * 32) - h + c)

/-- Character for one base-36 digit, lowercase as in JS `Number.toString(36)`. -/
def digit36 (k : Nat) : Char :=
  if k < 10 then Char.ofNat (48 + k) else Char.ofNat (87 + k)

/-- Base-36 digit list of a natural number, most significant first.  The
fuel argument only drives termination; `n` itself is always enough fuel. -/
def natToBase36Go : Nat → Nat → List Char → List Char
  | 0, _, acc => acc
  | fuel + 1, n, acc =>
    if n = 0 then acc
    else natToBase36Go fuel (n / 36) (digit36 (n % 36) :: acc)

/-- JS `Number.prototype.toString(36)` restricted to integers. -/
def intToBase36 (n : Int) : String :=
  if n < 0 then "-" ++ String.mk (natToBase36Go n.natAbs n.natAbs [])
  else if n = 0 then "0"
  else String.mk (natToBase36Go n.toNat n.toNat [])

/-- `generateHash` (service lines 742–751): rolling 32-bit hash rendered in
base 36.  Characters are taken as code points (the source reads UTF-16 code
units; the two agree on the Basic Multilingual Plane). -/
def generateHash (text : String) : String :=
  intToBase36 (text.toList.foldl (fun h c => hashStep h c.toNat) 0)

/-! ### JS `Map` as an insertion-ordered association list

`Map.set` keeps the original insertion position when the key already exists
and appends otherwise; `Map.size` is the number of keys. -/

/-- `Map.prototype.set` on an insertion-ordered association list: an
existing key keeps its insertion position and gets the new value, a fresh
key is appended at the end. -/
def jsMapSet (m : List (String × Vec)) (k : String) (v : Vec) :
    List (String × Vec) :=
  match m with
  | [] => [(k, v)]
  | (k2, v2) :: rest =>
    if k2 = k then (k, v) :: rest
    else (k2, v2) :: jsMapSet rest k v

/-- `Map.prototype.get` (`none` for `undefined`). -/
def jsMapGet (m : List (String × Vec)) (k : String) : Option Vec := m.lookup k

/-- `Map.prototype.size`. -/
def jsMapSize (m : List (String × Vec)) : Nat := m.length

/-! ### `generateEmbeddingWithRetry` (service lines 335–351)

The external embedding endpoint is an oracle from attempt number to outcome.
The returned list records, in order, the waits
`this.config.retryDelay * (retries + 1)` performed before each retry. -/

/-- `generateEmbeddingWithRetry` with the external call abstracted:
returns the final outcome plus the list of delays slept before retries. -/
def generateEmbeddingWithRetry (call : Nat → Except String Vec)
    (maxRetries retryDelay : Nat) (retries : Nat) :
    Except String Vec × List Nat :=
  match call retries with
  | Except.ok v => (Except.ok v, [])
  | Except.error e =>
    if h : retries < maxRetries then
      let d := retryDelay * (retries + 1)
      let r := generateEmbeddingWithRetry call maxRetries retryDelay (retries + 1)
      (r.1, d :: r.2)
    else (Except.error e, [])
termination_by maxRetries - retries
decreasing_by
  omega

/-! ### Cache-aware embedding (service lines 285–297 and 371–384)

Both `generateAndStoreEmbeddings` (per chunk) and `searchSemantic` (for the
query) consult `this.embeddingCache` by `generateHash` before calling the
endpoint and store the fresh vector afterwards.  The `Nat` counts external
embedding calls. -/

/-- One cache-aware embedding step: result vector, updated cache, and the
number of external embedding calls made (0 or 1). -/
def embedCached (cache : List (String × Vec)) (text : String)
    (oracle : String → Vec) : Vec × List (String × Vec) × Nat :=
  let h := generateHash text
  match jsMapGet cache h with
  | some v => (v, cache, 0)
  | none =>
    let v := oracle text
    (v, jsMapSet cache h v, 1)

/-! ### JS string primitives

The embeddings below avoid the core `String.trim`/`String.splitOn` (whose
loops do not reduce inside the kernel) in favour of structural
implementations over the character list, so every definition evaluates by
`decide`/`rfl`. -/

/-- The ASCII part of the JS `\s` character class (the source strings here
never contain the non-ASCII space code points). -/
def jsIsSpace (c : Char) : Bool :=
  c == ' ' || c == '\t' || c == '\n' || c == '\r' ||
  c == Char.ofNat 11 || c == Char.ofNat 12

/-- JS `String.prototype.trim`. -/
def jsTrim (s : String) : String :=
  String.mk (((s.toList.dropWhile jsIsSpace).reverse.dropWhile jsIsSpace).reverse)

/-- Is the first list a prefix of the second? -/
def listStartsWith : List Char → List Char → Bool
  | [], _ => true
  | _ :: _, [] => false
  | p :: ps, c :: cs => p == c && listStartsWith ps cs

/-- Scanner for JS `String.prototype.split` with a non-empty separator:
`acc` holds the current fragment reversed.  The fuel argument only drives
termination; one character is consumed per step. -/
def jsSplitGo (sep : List Char) : Nat → List Char → List Char → List (List Char)
  | _, acc, [] => [acc.reverse]
  | 0, acc, rest => [acc.reverse ++ rest]
  | fuel + 1, acc, c :: cs =>
    if listStartsWith sep (c :: cs) then
      acc.reverse :: jsSplitGo sep fuel [] (List.drop (sep.length - 1) cs)
    else jsSplitGo sep fuel (c :: acc) cs

/-- JS `s.split(sep)` for a non-empty separator string. -/
def jsSplit (sep : String) (s : String) : List String :=
  (jsSplitGo sep.toList (s.toList.length + 1) [] s.toList).map String.mk

/-! ### Search results

`searchSemantic` (service lines 412–423) maps index hits to objects holding
the chunk text, the similarity score and a metadata record. -/

/-- The metadata record attached to each retrieved document
(service lines 415–422). -/
structure DocMeta where
  pageNumber : Int
  source : String
  chunkIndex : Int
  totalTokens : Int
  importance : ℚ
  hash : String
deriving DecidableEq

/-- A retrieved document as produced by `searchSemantic`
(service lines 412–423). -/
structure Doc where
  text : String
  score : ℚ
  metadata : DocMeta
deriving DecidableEq

/-! ### `parseInt` and the re-ranking reply parser (service lines 600–609) -/

/-- Value of a hexadecimal digit character, if any. -/
def hexVal (c : Char) : Option Nat :=
  if c.isDigit then some (c.toNat - 48)
  else if 'a' ≤ c ∧ c ≤ 'f' then some (c.toNat - 87)
  else if 'A' ≤ c ∧ c ≤ 'F' then some (c.toNat - 55)
  else none

/-- Longest leading run of decimal digits, `none` when there is none. -/
def parseDigitsDec (cs : List Char) : Option Nat :=
  let ds := cs.takeWhile Char.isDigit
  if ds.isEmpty then none
  else some (ds.foldl (fun a c => a * 10 + (c.toNat - 48)) 0)

/-- Longest leading run of hexadecimal digits, `none` when there is none. -/
def parseDigitsHex (cs : List Char) : Option Nat :=
  let ds := cs.takeWhile (fun c => (hexVal c).isSome)
  if ds.isEmpty then none
  else some (ds.foldl (fun a c => a * 16 + (hexVal c).getD 0) 0)

/-- Magnitude part of JS `parseInt` with no radix argument: a `0x`/`0X`
prefix selects hexadecimal, otherwise decimal. -/
def jsParseIntBody (cs : List Char) : Option Nat :=
  match cs with
  | '0' :: c :: rest =>
    if c = 'x' ∨ c = 'X' then parseDigitsHex rest else parseDigitsDec ('0' :: c :: rest)
  | _ => parseDigitsDec cs

/-- JS `parseInt(s)` (no radix): leading whitespace, optional sign, then the
longest valid digit prefix; `none` models `NaN`. -/
def jsParseInt (s : String) : Option Int :=
  match s.toList.dropWhile jsIsSpace with
  | '-' :: rest => (jsParseIntBody rest).map (fun n => -(n : Int))
  | '+' :: rest => (jsParseIntBody rest).map (fun n => (n : Int))
  | rest => (jsParseIntBody rest).map (fun n => (n : Int))

/-- Parse the re-ranking reply (service lines 601–603):
`content.split(',').map(n => parseInt(n.trim()) - 1)` followed by
`.filter(n => !isNaN(n) && n >= 0 && n < documents.length)`; the map and the
filter are fused into one `filterMap` (`none` is `NaN`, which the filter
removes). -/
def parseRanking (content : String) (len : Nat) : List Nat :=
  ((jsSplit "," content).map
      (fun piece => (jsParseInt (jsTrim piece)).map (fun k => k - 1))).filterMap
    (fun x =>
      match x with
      | none => none
      | some n => if 0 ≤ n ∧ n < (len : Int) then some n.toNat else none)

/-- `rerankDocuments` (service lines 581–614) with the chat call abstracted:
`reply` is either the thrown error or the raw `choices[0].message.content`.
Errors are caught inside the function and yield the input order; a parsed
ranking that is empty also yields the input order; otherwise the result is
`ranking.map(index => documents[index])` (every ranking entry is in range by
construction, so the JS indexing never yields `undefined`). -/
def rerankDocuments (documents : List Doc) (reply : Except String String) :
    List Doc :=
  match reply with
  | Except.error _ => documents
  | Except.ok content =>
    let ranking := parseRanking (jsTrim content) documents.length
    if ranking.isEmpty then documents
    else ranking.filterMap (fun i => documents[i]?)

/-- `expandWithContext` (service lines 451–466): computes adjacent chunk ids
but only copies each document into a fresh array. -/
def expandWithContext (documents : List Doc) : List Doc :=
  documents.foldl (fun expanded doc => expanded ++ [doc]) []

/-- The tail of `searchSemantic` (service lines 408–443), starting from the
mapped vector-search hits `relevantDocs`: optional re-ranking (whose failure
is caught, lines 425–432), optional context expansion (failure also caught),
and truncation to `limit`.  The function is total: a re-ranking failure is
never propagated. -/
def searchSemanticPost (relevantDocs : List Doc) (limit : Nat)
    (useReranking includeContext : Bool)
    (rerankReply : Except String String) : List Doc :=
  if relevantDocs.isEmpty then []
  else
    let docs :=
      if useReranking && decide (0 < relevantDocs.length) then
        rerankDocuments relevantDocs rerankReply
      else relevantDocs
    let docs2 := if includeContext then expandWithContext docs else docs
    docs2.take limit

/-! ### `generateResponse` (service lines 469–554)

The response-cache lookup and the chat completion are abstracted: a `some`
value of `cachedResponse` is a fresh (< 1 h) `getResponseCache` hit holding
the stored answer and sources, and `llmAnswer` is what the completion
endpoint would reply.  The `Nat` in the result counts how many
chat-completion calls `generateResponse` itself performs. -/

/-- What `generateResponse` returns: a complete answer, or a stream handle
plus sources. -/
inductive GenResult
  | answered (answer : String) (sources : List DocMeta) (cached : Bool)
  | streamed (sources : List DocMeta) (cached : Bool)
deriving DecidableEq

/-- The fixed no-relevant-information answer (service line 487). -/
def noInfoAnswer : String :=
  "Desculpe, não encontrei informações relevantes no documento para responder sua pergunta."

/-- `generateResponse` given the retrieval result `relevantDocs`
(service lines 485–549), paired with its chat-completion call count. -/
def generateResponse (relevantDocs : List Doc)
    (cachedResponse : Option (String × List DocMeta))
    (streamResponse : Bool) (llmAnswer : String) : GenResult × Nat :=
  if relevantDocs.isEmpty then
    (GenResult.answered noInfoAnswer [] false, 0)
  else
    match cachedResponse with
    | some hit => (GenResult.answered hit.1 hit.2 true, 0)
    | none =>
      if streamResponse then
        (GenResult.streamed (relevantDocs.map (fun d => d.metadata)) false, 1)
      else
        (GenResult.answered llmAnswer (relevantDocs.map (fun d => d.metadata)) false, 1)

/-! ### `importIndex` (service lines 666–690)

The serialized Orama index is opaque to the validation logic, so it is
modelled as an uninterpreted `String` blob.  State mutation is made explicit:
the function returns the (possibly unchanged) state together with either the
thrown error or the returned metadata. -/

/-- The serialized vector index, opaque to `importIndex` validation. -/
abbrev IndexData := String

/-- The metadata envelope of an export blob (the fields `importIndex`
inspects). -/
structure ImportMetadata where
  model : Option String
  dimensions : Option Int
deriving DecidableEq

/-- A parsed import blob (`JSON.parse` result), with absent JSON fields as
`none`. -/
structure ImportBlob where
  version : Option String
  metadata : Option ImportMetadata
  index : IndexData
  embeddingCache : Option (List (String × Vec))
deriving DecidableEq

/-- The two validation failures of `importIndex` (lines 671–677): the
version error (`Versão de índice incompatível`) and the dimension error
(`Índice usa N dimensões, ...`). -/
inductive ImportError
  | formatError
  | dimensionMismatch
deriving DecidableEq

/-- The mutable service state touched by `importIndex`: `this.db`,
`this.embeddingCache` and `this.initialized` (modelled as `inited`). -/
structure RAGState where
  db : Option IndexData
  embeddingCache : List (String × Vec)
  inited : Bool
deriving DecidableEq

/-- `importIndex` (service lines 666–690).  Checks run in source order:
version first, then `data.metadata?.dimensions !== config.embeddingDimensions`;
only after both pass are `db`, the embedding cache (`new Map(entries)`,
i.e. a `set` per entry) and the `initialized` flag assigned. -/
def importIndex (st : RAGState) (cfgDims : Int) (blob : ImportBlob) :
    RAGState × Except ImportError (Option ImportMetadata) :=
  if blob.version ≠ some "2.0" then
    (st, Except.error ImportError.formatError)
  else if blob.metadata.bind (fun m => m.dimensions) ≠ some cfgDims then
    (st, Except.error ImportError.dimensionMismatch)
  else
    let st1 := { st with db := some blob.index }
    let st2 :=
      match blob.embeddingCache with
      | some entries =>
        { st1 with
          embeddingCache :=
            entries.foldl (fun m (p : String × Vec) => jsMapSet m p.1 p.2) [] }
      | none => st1
    ({ st2 with inited := true }, Except.ok blob.metadata)

/-! ### `SimpleTextSplitter` (`src/utils/textSplitter.js`)

`Math.ceil` on JS numbers is `Int.ceil` on `ℚ` here.  The service constructs
its splitter (service lines 29–33) without a `tokenizer` option, so the
splitter falls back to its own `defaultTokenizer`. -/

/-- `SimpleTextSplitter.defaultTokenizer` (splitter lines 25–28):
`Math.ceil(text.length / 4)`. -/
def defaultTokenizer (text : String) : Int := Int.ceil ((text.length : ℚ) / 4)

/-- `estimateTokens` of the service (service lines 737–740):
`Math.ceil(text.length / 3)`. -/
def estimateTokens (text : String) : Int := Int.ceil ((text.length : ℚ) / 3)

/-- The splitter fields relevant to `splitText`. -/
structure SplitterConfig where
  chunkSize : Int
  chunkOverlap : Int
  separators : List String
  tok : String → Int

/-- The `SimpleTextSplitter` constructor (splitter lines 5–18):
`this.tokenizer = tokenizer || this.defaultTokenizer`. -/
def mkSplitter (chunkSize chunkOverlap : Int) (separators : List String)
    (tokenizer : Option (String → Int)) : SplitterConfig :=
  { chunkSize := chunkSize
  , chunkOverlap := chunkOverlap
  , separators := separators
  , tok := tokenizer.getD defaultTokenizer }

/-- The separator priority list the service passes (service line 32, equal to
the splitter default). -/
def ragSeparators : List String := ["\n\n", "\n", ". ", "! ", "? ", "; ", ": ", " "]

/-- The splitter instance the service builds (service lines 29–33): chunk
size 800, overlap 200, no custom tokenizer. -/
def ragSplitter : SplitterConfig :=
  mkSplitter ragConfig.chunkSize ragConfig.chunkOverlap ragSeparators none

/-- The token-count function the service splitter measures with. -/
def ragSplitterTokenizer : String → Int := ragSplitter.tok

/-- One inner step of `splitBySeparators` (splitter lines 100–121): split a
part on a separator it contains, keeping trimmed non-empty fragments;
otherwise keep the part untouched.  `part.includes(sep)` for the non-empty
separators used here is `(part.splitOn sep).length > 1`. -/
def splitOnePart (sep : String) (part : String) : List String :=
  if (jsSplit sep part).length > 1 then
    ((jsSplit sep part).map jsTrim).filter (fun s => s ≠ "")
  else [part]

/-- `splitBySeparators` (splitter lines 100–121). -/
def splitBySeparators (separators : List String) (text : String) : List String :=
  separators.foldl
    (fun parts sep => parts.foldl (fun acc part => acc ++ splitOnePart sep part) [])
    [text]

/-- The object `formatChunk` builds (splitter lines 88–98), with the
`metadata` sub-object flattened. -/
structure FormattedChunk where
  text : String
  index : Nat
  tokens : Int
  hasOverlap : Bool
deriving DecidableEq

/-- `formatChunk` (splitter lines 88–98). -/
def formatChunk (cfg : SplitterConfig) (text : String) (index : Nat) :
    FormattedChunk :=
  { text := text
  , index := index
  , tokens := cfg.tok text
  , hasOverlap := decide (index > 0) && decide (cfg.chunkOverlap > 0) }

/-- The backwards word loop of `getOverlapWithTokens` (splitter lines
137–147); the word list arrives already reversed.  Note the source reads the
freshly updated `overlap` in the `currentTokens` increment. -/
def overlapLoop (cfg : SplitterConfig) (overlapTokens : Int) :
    List String → String → Int → String × Int
  | [], overlap, cur => (overlap, cur)
  | w :: rest, overlap, cur =>
    let wt := cfg.tok w
    if cur + wt + (if overlap ≠ "" then 1 else 0) ≤ overlapTokens then
      let overlap1 := w ++ (if overlap ≠ "" then " " ++ overlap else "")
      let cur1 := cur + wt + (if overlap1 ≠ "" then 1 else 0)
      overlapLoop cfg overlapTokens rest overlap1 cur1
    else (overlap, cur)

/-- `getOverlapWithTokens` (splitter lines 129–150). -/
def getOverlapWithTokens (cfg : SplitterConfig) (text : String)
    (overlapTokens : Int) : String × Int :=
  if text = "" ∨ overlapTokens ≤ 0 then ("", 0)
  else overlapLoop cfg overlapTokens (jsSplit " " text).reverse "" 0

/-- The sentence-accumulation loop of `splitText` (splitter lines 48–72),
returning the emitted chunks and the final `currentChunk`. -/
def splitLoop (cfg : SplitterConfig) :
    List String → List FormattedChunk → String → Int →
    List FormattedChunk × String
  | [], chunks, cur, _ => (chunks, cur)
  | sentence :: rest, chunks, cur, curTok =>
    let sTok := cfg.tok sentence
    if cur ≠ "" ∧ curTok + sTok + 1 > cfg.chunkSize then
      let chunks1 :=
        if jsTrim cur ≠ "" then chunks ++ [formatChunk cfg (jsTrim cur) chunks.length]
        else chunks
      if chunks1.length > 0 ∧ cfg.chunkOverlap > 0 then
        let lastText := (chunks1.getLast?.map (fun c => c.text)).getD ""
        let od := getOverlapWithTokens cfg lastText cfg.chunkOverlap
        let cur1 := if od.1 ≠ "" then od.1 ++ " " ++ sentence else sentence
        splitLoop cfg rest chunks1 cur1 (od.2 + sTok + 1)
      else
        splitLoop cfg rest chunks1 sentence sTok
    else
      let cur1 := if cur ≠ "" then cur ++ " " ++ sentence else sentence
      let curTok1 := curTok + sTok + (if cur1 ≠ "" then 1 else 0)
      splitLoop cfg rest chunks cur1 curTok1

/-- What `splitText` can return per element: the early-return path yields the
raw (trimmed) string itself, the main path yields `formatChunk` objects. -/
inductive SplitResult
  | raw (s : String)
  | chunk (c : FormattedChunk)
deriving DecidableEq

/-- `splitText` (splitter lines 30–80) for string input.  `!text` is
`text = ""`; the non-string guard of line 31 is outside this type. -/
def splitText (cfg : SplitterConfig) (text : String) : List SplitResult :=
  if text = "" then []
  else
    let t := jsTrim text
    if cfg.tok t ≤ cfg.chunkSize then [SplitResult.raw t]
    else
      let sentences := splitBySeparators cfg.separators t
      let lp := splitLoop cfg sentences [] "" 0
      let chunks :=
        if jsTrim lp.2 ≠ "" then lp.1 ++ [formatChunk cfg (jsTrim lp.2) lp.1.length]
        else lp.1
      (chunks.filter (fun c => c.text ≠ "")).map SplitResult.chunk

/-! ### `calculateImportance` (service lines 753–776)

The three regular expressions are modelled as decidable predicates over the
character list; only the ASCII subset of `\s` is represented (the inputs of
interest contain no exotic space code points). -/

/-- JS multiline `^`/`$` line terminators. -/
def isLineTerm (c : Char) : Bool :=
  c == '\n' || c == '\r' || c == Char.ofNat 0x2028 || c == Char.ofNat 0x2029

/-- The class `[A-Z\s\d\.]` of the title regex. -/
def isTitleClass (c : Char) : Bool :=
  (decide ('A' ≤ c) && decide (c ≤ 'Z')) || jsIsSpace c || c.isDigit ||
  decide (c = '.')

/-- Does `$` (multiline) match at the head of the remaining list? -/
def atLineEnd : List Char → Bool
  | [] => true
  | c :: _ => isLineTerm c

/-- Match `[A-Z\s\d\.]{3,50}$` at a fixed start position: some length
between 3 and 50 of class characters followed by a line end. -/
def titleMatchFrom (cs : List Char) : Bool :=
  (List.range 48).any fun i =>
    let k := i + 3
    decide (k ≤ cs.length) && (cs.take k).all isTitleClass && atLineEnd (cs.drop k)

/-- Try `titleMatchFrom` after every line terminator. -/
def titleScan : List Char → Bool
  | [] => false
  | c :: rest => (isLineTerm c && titleMatchFrom rest) || titleScan rest

/-- `text.match(/^[A-Z\s\d\.]{3,50}$/m)` as a Boolean: a match starting at
the string start or after any line terminator. -/
def titleMatch (s : String) : Bool := titleMatchFrom s.toList || titleScan s.toList

/-- Skip the rest of one `\d+\.?\d*` match after its first digit: remaining
digits, an optional dot, then optional digits. -/
def skipNumTail (rest : List Char) : List Char :=
  match rest.dropWhile Char.isDigit with
  | '.' :: r => r.dropWhile Char.isDigit
  | other => other

theorem skipNumTail_length_le (rest : List Char) :
    (skipNumTail rest).length ≤ rest.length := by
  have h1 := (List.dropWhile_suffix (l := rest) Char.isDigit).length_le
  unfold skipNumTail
  split
  · next r heq =>
    have h2 := (List.dropWhile_suffix (l := r) Char.isDigit).length_le
    rw [heq] at h1
    simp only [List.length_cons] at h1
    omega
  · next heq => exact h1

/-- Number of matches of `/\d+\.?\d*/g`: the regex is scanned left to right,
each match starting at a digit and consuming greedily (the pattern never
backtracks).  The fuel argument only drives termination; one character is
consumed per step, so an initial fuel of `cs.length` never runs out. -/
def countNumbersAux : Nat → List Char → Nat
  | 0, _ => 0
  | fuel + 1, cs =>
    match cs with
    | [] => 0
    | c :: rest =>
      if c.isDigit then 1 + countNumbersAux fuel (skipNumTail rest)
      else countNumbersAux fuel rest

/-- Number of matches of `text.match(/\d+\.?\d*/g)`. -/
def countNumbers (cs : List Char) : Nat := countNumbersAux cs.length cs

/-- The class `[\d\-\*•]` of the list-marker regex. -/
def listMarkerClass (c : Char) : Bool :=
  c.isDigit || c == '-' || c == '*' || c == '•'

/-- Match `\s*[\d\-\*•]\s+` at a fixed start position (the whitespace run
before the marker is forced to be maximal because no marker is whitespace). -/
def listMatchFrom (cs : List Char) : Bool :=
  match cs.dropWhile jsIsSpace with
  | m :: s :: _ => listMarkerClass m && jsIsSpace s
  | _ => false

/-- Try `listMatchFrom` after every line terminator. -/
def listScan : List Char → Bool
  | [] => false
  | c :: rest => (isLineTerm c && listMatchFrom rest) || listScan rest

/-- `text.match(/^\s*[\d\-\*•]\s+/m)` as a Boolean. -/
def listMatch (s : String) : Bool := listMatchFrom s.toList || listScan s.toList

/-- `calculateImportance` (service lines 753–776) on a string input: a
multiplicative score starting at 1.0, clamped by `Math.min(score, 2.0)`. -/
def calculateImportance (text : String) (pageNum totalPages : Int) : ℚ :=
  let s1 : ℚ := 1
  let s2 := if pageNum ≤ 3 then s1 * 1.3 else s1
  let s3 := if pageNum ≥ totalPages - 2 then s2 * 1.2 else s2
  let s4 := if titleMatch text then s3 * 1.4 else s3
  let s5 := if countNumbers text.toList > 5 then s4 * 1.2 else s4
  let s6 := if listMatch text then s5 * 1.1 else s5
  let s7 := if text.length > 600 then s6 * 1.1 else s6
  min s7 2

/-- A dynamically typed JS argument. -/
inductive JSValue
  | str (s : String)
  | num (q : ℚ)
  | nullV
  | undef
  | boolV (b : Bool)
deriving DecidableEq

/-- The runtime error a non-string argument produces. -/
inductive JSError
  | typeError
deriving DecidableEq

/-- `calculateImportance` as called with an arbitrary value: the function
has no type guard, so `text.match(...)` (line 763) throws a `TypeError`
whenever `text` is not a string. -/
def calculateImportanceJS (text : JSValue) (pageNum totalPages : Int) :
    Except JSError ℚ :=
  match text with
  | JSValue.str s => Except.ok (calculateImportance s pageNum totalPages)
  | _ => Except.error JSError.typeError

/-! ## Helper lemmas -/

/-- Copying every document into a fresh array is the identity. -/
theorem expandWithContext_eq (documents : List Doc) :
    expandWithContext documents = documents := by
  unfold expandWithContext
  suffices h : ∀ acc : List Doc,
      documents.foldl (fun e d => e ++ [d]) acc = acc ++ documents by
    simpa using h []
  induction documents with
  | nil => intro acc; simp
  | cons d t ih => intro acc; simp [List.foldl_cons, ih]

/-- Does the re-ranking step fall back to the original order: the chat call
threw, or the parsed ranking is empty. -/
def rerankFails (documents : List Doc) (reply : Except String String) : Bool :=
  match reply with
  | Except.error _ => true
  | Except.ok content => (parseRanking (jsTrim content) documents.length).isEmpty

/-- A failed re-ranking leaves the document list untouched. -/
theorem rerankDocuments_of_fails (documents : List Doc)
    (reply : Except String String) (h : rerankFails documents reply = true) :
    rerankDocuments documents reply = documents := by
  unfold rerankDocuments
  match reply with
  | Except.error e => rfl
  | Except.ok content =>
    simp only [rerankFails] at h
    simp [h]

/-- Sample retrieved documents for concrete instantiations. -/
def sampleDoc1 : Doc := ⟨"first passage", 0.9, ⟨1, "doc.pdf", 0, 10, 1, "h1"⟩⟩

/-- Second sample document. -/
def sampleDoc2 : Doc := ⟨"second passage", 0.8, ⟨1, "doc.pdf", 1, 10, 1, "h2"⟩⟩

/-- Third sample document. -/
def sampleDoc3 : Doc := ⟨"third passage", 0.7, ⟨2, "doc.pdf", 0, 10, 1, "h3"⟩⟩

/-! ## Claims -/

/-- C1: if the re-ranking step fails — the chat call throws, or its reply
parses to an empty list of valid indices — `searchSemantic` still returns
the candidates in their pre-rerank order, truncated to `limit`, and
(being a total function here, with the failure consumed by the catch
blocks of lines 425–432 and 610–613) never propagates the re-ranking
error; if the candidates arrive sorted by score descending, the result is
sorted by score descending as well. -/
theorem rerank_failure_keeps_original_order
    (relevantDocs : List Doc) (limit : Nat) (includeContext : Bool)
    (reply : Except String String)
    (hfail : rerankFails relevantDocs reply = true) :
    searchSemanticPost relevantDocs limit true includeContext reply
        = relevantDocs.take limit ∧
      (List.Sorted (fun a b : Doc => b.score ≤ a.score) relevantDocs →
        List.Sorted (fun a b : Doc => b.score ≤ a.score)
          (searchSemanticPost relevantDocs limit true includeContext reply)) := by
  have hkey : searchSemanticPost relevantDocs limit true includeContext reply
      = relevantDocs.take limit := by
    unfold searchSemanticPost
    by_cases hemp : relevantDocs.isEmpty
    · rw [if_pos hemp]
      rw [List.isEmpty_iff] at hemp
      simp [hemp]
    · rw [if_neg hemp]
      have hlen : (0 < relevantDocs.length) := by
        rw [List.isEmpty_iff] at hemp
        exact List.length_pos.mpr hemp
      simp only [decide_eq_true hlen, Bool.and_self, if_true]
      rw [rerankDocuments_of_fails relevantDocs reply hfail]
      cases includeContext <;> simp [expandWithContext_eq]
  refine ⟨hkey, fun hsorted => ?_⟩
  rw [hkey]
  exact hsorted.sublist (List.take_sublist _ _)

/-- C1 witness: a concrete failing re-ranking call on two candidates. -/
theorem rerank_failure_keeps_original_order_witness :
    searchSemanticPost [sampleDoc1, sampleDoc2] 10 true true (Except.error "boom")
      = [sampleDoc1, sampleDoc2] := by
  have h := rerank_failure_keeps_original_order [sampleDoc1, sampleDoc2] 10 true
    (Except.error "boom") rfl
  rw [h.1]
  rfl

/-- C2: when retrieval yields zero results, `generateResponse` returns the
fixed no-relevant-information answer with an empty sources list, performs
zero chat-completion calls, and does so as a normal (non-throwing) return,
whatever the cache state, streaming flag or would-be completion reply. -/
theorem zero_results_no_info_answer (relevantDocs : List Doc)
    (cachedResponse : Option (String × List DocMeta))
    (streamResponse : Bool) (llmAnswer : String)
    (h : relevantDocs = []) :
    generateResponse relevantDocs cachedResponse streamResponse llmAnswer
      = (GenResult.answered noInfoAnswer [] false, 0) := by
  subst h
  rfl

/-- C2 witness: concrete empty retrieval. -/
theorem zero_results_no_info_answer_witness :
    generateResponse [] none true "unused"
      = (GenResult.answered noInfoAnswer [] false, 0) :=
  zero_results_no_info_answer [] none true "unused" rfl

/-- Unfolding of the retry loop when every attempt fails, at the service's
configured bounds: four attempts, three linearly growing waits. -/
theorem genRetry_fail3 (call : Nat → Except String Vec) (e : String)
    (hfail : ∀ k, call k = Except.error e) :
    generateEmbeddingWithRetry call 3 1000 0
      = (Except.error e, [1000, 2000, 3000]) := by
  simp [generateEmbeddingWithRetry, hfail]

/-- C4 counterexample: with every attempt failing, the waits slept before
the three retries are 1000, 2000, 3000 ms — the linear ramp
`retryDelay * (retries + 1)` — not the claimed exponential
`baseDelay * 2 ^ retryCount`, which would end 1000, 2000, 4000. -/
theorem retry_backoff_not_exponential :
    (generateEmbeddingWithRetry (fun _ => Except.error "boom") 3 1000 0).2
        = [1000, 2000, 3000] ∧
      [1000, 2000, 3000] ≠ [1000 * 2 ^ 0, 1000 * 2 ^ 1, 1000 * 2 ^ 2] := by
  constructor
  · rw [genRetry_fail3 (fun _ => Except.error "boom") "boom" (fun k => rfl)]
  · decide

/-- C4 amended: on persistent failure of the embedding call,
`generateEmbeddingWithRetry` retries up to `config.maxRetries = 3` times,
sleeping a linearly increasing `retryDelay * (retries + 1)` (1000 ms, 2000
ms, 3000 ms) before each retry, and throws the last error only after
exhausting all retries. -/
theorem retry_exhaustion_linear_backoff (call : Nat → Except String Vec)
    (e : String) (hfail : ∀ k, call k = Except.error e) :
    generateEmbeddingWithRetry call ragConfig.maxRetries ragConfig.retryDelay 0
      = (Except.error e, [1000, 2000, 3000]) := by
  have h := genRetry_fail3 call e hfail
  simpa [ragConfig] using h

/-- C4 witness: a concrete always-failing embedding call. -/
theorem retry_exhaustion_linear_backoff_witness :
    generateEmbeddingWithRetry (fun _ => Except.error "boom")
        ragConfig.maxRetries ragConfig.retryDelay 0
      = (Except.error "boom", [1000, 2000, 3000]) :=
  retry_exhaustion_linear_backoff (fun _ => Except.error "boom") "boom"
    (fun _ => rfl)

/-- A conditional multiplicative boost by a factor ≥ 1 keeps the score ≥ 1. -/
theorem one_le_boost (c : Prop) [Decidable c] {q f : ℚ} (hq : 1 ≤ q)
    (hf : 1 ≤ f) : 1 ≤ if c then q * f else q := by
  split
  · nlinarith
  · exact hq

/-- C3 counterexample: `calculateImportance` has no type guard, so at the
invalid input `null` it throws a `TypeError` from `text.match` (line 763)
instead of returning the neutral 1.0. -/
theorem importance_throws_on_non_string :
    calculateImportanceJS JSValue.nullV 1 10 = Except.error JSError.typeError := rfl

/-- C3 amended: for every string input (and any page numbers) the importance
score lies in [1.0, 2.0]; a non-string input, however, makes
`calculateImportance` throw a `TypeError` rather than return 1.0. -/
theorem importance_in_bounds (text : String) (pageNum totalPages : Int) :
    1 ≤ calculateImportance text pageNum totalPages ∧
      calculateImportance text pageNum totalPages ≤ 2 := by
  have h1 : (1 : ℚ) ≤ 1 := le_refl 1
  have h2 := one_le_boost (pageNum ≤ 3) h1 (by norm_num : (1 : ℚ) ≤ 1.3)
  have h3 := one_le_boost (pageNum ≥ totalPages - 2) h2 (by norm_num : (1 : ℚ) ≤ 1.2)
  have h4 := one_le_boost (titleMatch text = true) h3 (by norm_num : (1 : ℚ) ≤ 1.4)
  have h5 := one_le_boost (countNumbers text.toList > 5) h4 (by norm_num : (1 : ℚ) ≤ 1.2)
  have h6 := one_le_boost (listMatch text = true) h5 (by norm_num : (1 : ℚ) ≤ 1.1)
  have h7 := one_le_boost (text.length > 600) h6 (by norm_num : (1 : ℚ) ≤ 1.1)
  unfold calculateImportance
  exact ⟨le_min h7 (by norm_num), min_le_right _ _⟩

/-- Ceiling of a natural number divided by 4, as a natural-number division. -/
theorem ceil_natCast_div_four (n : ℕ) :
    Int.ceil ((n : ℚ) / 4) = (((n + 3) / 4 : ℕ) : ℤ) := by
  rw [Int.ceil_eq_iff]
  constructor
  · rw [lt_div_iff₀ (by norm_num : (0:ℚ) < 4)]
    exact_mod_cast (show ((((n + 3) / 4 : ℕ) : ℤ) - 1) * 4 < (n : ℤ) by omega)
  · rw [div_le_iff₀ (by norm_num : (0:ℚ) < 4)]
    exact_mod_cast (show (n : ℤ) ≤ (((n + 3) / 4 : ℕ) : ℤ) * 4 by omega)

/-- Ceiling of a natural number divided by 3, as a natural-number division. -/
theorem ceil_natCast_div_three (n : ℕ) :
    Int.ceil ((n : ℚ) / 3) = (((n + 2) / 3 : ℕ) : ℤ) := by
  rw [Int.ceil_eq_iff]
  constructor
  · rw [lt_div_iff₀ (by norm_num : (0:ℚ) < 3)]
    exact_mod_cast (show ((((n + 2) / 3 : ℕ) : ℤ) - 1) * 3 < (n : ℤ) by omega)
  · rw [div_le_iff₀ (by norm_num : (0:ℚ) < 3)]
    exact_mod_cast (show (n : ℤ) ≤ (((n + 2) / 3 : ℕ) : ℤ) * 3 by omega)

/-- A non-empty string that trims to nothing takes `splitText`'s small-text
early return with the trimmed (empty) text as its single element. -/
theorem splitText_blank_helper (s : String) (h0 : s ≠ "")
    (hw : jsTrim s = "") : splitText ragSplitter s = [SplitResult.raw ""] := by
  unfold splitText
  rw [if_neg h0]
  simp only [hw]
  rw [if_pos]
  rw [show ragSplitter.tok "" = (((String.length "" + 3) / 4 : ℕ) : ℤ) from
    ceil_natCast_div_four (String.length "")]
  norm_num [ragSplitter, mkSplitter, ragConfig]

/-- C5 counterexample: the whitespace-only input `" "` does not yield an
empty sequence — `splitText` trims it to `""`, whose token estimate 0 passes
the small-text check, so the result is the one-element sequence holding the
empty string. -/
theorem splitText_whitespace_not_empty :
    splitText ragSplitter " " = [SplitResult.raw ""] ∧
      splitText ragSplitter " " ≠ ([] : List SplitResult) := by
  have h := splitText_blank_helper " " (by decide) (by decide)
  exact ⟨h, by rw [h]; simp⟩

/-- C5 amended: the empty string yields an empty sequence (the `!text`
guard), but a non-empty whitespace-only string instead yields the
one-element sequence `[""]` via the early return `return [text]` after
trimming. -/
theorem splitText_empty_vs_whitespace :
    splitText ragSplitter "" = [] ∧
      ∀ s : String, s ≠ "" → jsTrim s = "" →
        splitText ragSplitter s = [SplitResult.raw ""] :=
  ⟨rfl, splitText_blank_helper⟩

/-- C5 witness: the single-space input. -/
theorem splitText_empty_vs_whitespace_witness :
    splitText ragSplitter " " = [SplitResult.raw ""] :=
  splitText_empty_vs_whitespace.2 " " (by decide) (by decide)

/-- C6 counterexample: on the four-character text `"abcd"` the splitter's
measuring tokenizer gives `ceil(4/4) = 1`, while the claimed
`ceil(length/3)` (the service's `estimateTokens`) gives 2. -/
theorem splitter_tokenizer_not_third :
    ragSplitterTokenizer "abcd" = 1 ∧ estimateTokens "abcd" = 2 ∧
      ragSplitterTokenizer "abcd" ≠ estimateTokens "abcd" := by
  have h1 : ragSplitterTokenizer "abcd" = (((String.length "abcd" + 3) / 4 : ℕ) : ℤ) :=
    ceil_natCast_div_four (String.length "abcd")
  have h2 : estimateTokens "abcd" = (((String.length "abcd" + 2) / 3 : ℕ) : ℤ) :=
    ceil_natCast_div_three (String.length "abcd")
  have hlen : String.length "abcd" = 4 := rfl
  rw [hlen] at h1 h2
  norm_num at h1 h2
  exact ⟨h1, h2, by rw [h1, h2]; decide⟩

/-- C6 amended: the tokenizer the service's splitter measures chunk size
with is `ceil(length / 4)` (the splitter's `defaultTokenizer`, since the
service passes no tokenizer option); `ceil(length / 3)` is the service's
separate `estimateTokens`, used for the chunk metadata, not by the
splitter. -/
theorem splitter_measures_quarter_not_third (text : String) :
    ragSplitterTokenizer text = (((text.length + 3) / 4 : ℕ) : ℤ) ∧
      estimateTokens text = (((text.length + 2) / 3 : ℕ) : ℤ) :=
  ⟨ceil_natCast_div_four text.length, ceil_natCast_div_three text.length⟩

/-- Setting a fresh key appends: the entry count grows by one. -/
theorem jsMapSet_length_new (m : List (String × Vec)) (k : String) (v : Vec)
    (h : m.lookup k = none) : (jsMapSet m k v).length = m.length + 1 := by
  induction m with
  | nil => rfl
  | cons a t ih =>
    obtain ⟨k2, v2⟩ := a
    by_cases hk : k2 = k
    · rw [List.lookup] at h
      simp [hk] at h
    · have htail : t.lookup k = none := by
        rw [List.lookup] at h
        have hb : (k == k2) = false := by simp [Ne.symm hk]
        simpa [hb] using h
      simp [jsMapSet, hk, ih htail]

/-- Setting an existing key overwrites in place: the entry count is
unchanged. -/
theorem jsMapSet_length_existing (m : List (String × Vec)) (k : String)
    (v : Vec) (h : (m.lookup k).isSome = true) :
    (jsMapSet m k v).length = m.length := by
  induction m with
  | nil => simp [List.lookup] at h
  | cons a t ih =>
    obtain ⟨k2, v2⟩ := a
    by_cases hk : k2 = k
    · simp [jsMapSet, hk]
    · have hb : (k == k2) = false := by simp [Ne.symm hk]
      have htail : (t.lookup k).isSome = true := by
        simpa [List.lookup, hb] using h
      simp [jsMapSet, hk, ih htail]

/-- `set` never removes any present key. -/
theorem jsMapSet_lookup_preserved (m : List (String × Vec)) (k k2 : String)
    (v : Vec) (h : (m.lookup k2).isSome = true) :
    ((jsMapSet m k v).lookup k2).isSome = true := by
  induction m with
  | nil => simp [List.lookup] at h
  | cons a t ih =>
    obtain ⟨ka, va⟩ := a
    by_cases hk : ka = k
    · subst hk
      by_cases hq : k2 = ka
      · have hb : (k2 == ka) = true := by simp [hq]
        simp [jsMapSet, List.lookup, hb]
      · have hb : (k2 == ka) = false := by simp [hq]
        have htail : (t.lookup k2).isSome = true := by
          simpa [List.lookup, hb] using h
        simp [jsMapSet, List.lookup, hb, htail]
    · by_cases hq : k2 = ka
      · have hb : (k2 == ka) = true := by simp [hq]
        simp [jsMapSet, hk, List.lookup, hb]
      · have hb : (k2 == ka) = false := by simp [hq]
        have htail : (t.lookup k2).isSome = true := by
          simpa [List.lookup, hb] using h
        simp [jsMapSet, hk, List.lookup, hb, ih htail]

/-- After `set`, the key maps to the stored value. -/
theorem jsMapSet_lookup_self (m : List (String × Vec)) (k : String) (v : Vec) :
    (jsMapSet m k v).lookup k = some v := by
  induction m with
  | nil => simp [jsMapSet, List.lookup]
  | cons a t ih =>
    obtain ⟨ka, va⟩ := a
    by_cases hk : ka = k
    · simp [jsMapSet, hk, List.lookup]
    · have hb : (k == ka) = false := by simp [Ne.symm hk]
      simp [jsMapSet, hk, List.lookup, hb, ih]

/-- `set` does not touch the binding of any other key. -/
theorem jsMapSet_lookup_other (m : List (String × Vec)) (k k2 : String)
    (v : Vec) (hne : k2 ≠ k) :
    (jsMapSet m k v).lookup k2 = m.lookup k2 := by
  induction m with
  | nil =>
    have hb : (k2 == k) = false := by simp [hne]
    simp [jsMapSet, List.lookup, hb]
  | cons a t ih =>
    obtain ⟨ka, va⟩ := a
    by_cases hk : ka = k
    · subst hk
      have hb : (k2 == ka) = false := by simp [hne]
      simp [jsMapSet, List.lookup, hb]
    · by_cases hq : k2 = ka
      · have hb : (k2 == ka) = true := by simp [hq]
        simp [jsMapSet, hk, List.lookup, hb]
      · have hb : (k2 == ka) = false := by simp [hq]
        simp [jsMapSet, hk, List.lookup, hb, ih]

/-- Folding `set` over pairwise-distinct keys absent from the map grows the
entry count by the number of keys. -/
theorem foldl_jsMapSet_fresh (ks : List String) (m : List (String × Vec))
    (hnone : ∀ k2 ∈ ks, m.lookup k2 = none) (hnd : ks.Nodup) :
    (ks.foldl (fun mm k => jsMapSet mm k ([] : Vec)) m).length
      = m.length + ks.length := by
  induction ks generalizing m with
  | nil => simp
  | cons k t ih =>
    simp only [List.foldl_cons]
    have h1 : m.lookup k = none := hnone k (by simp)
    have hnone2 : ∀ k2 ∈ t, (jsMapSet m k []).lookup k2 = none := by
      intro k2 hk2
      have hne : k2 ≠ k := by
        intro e
        exact (List.nodup_cons.mp hnd).1 (e ▸ hk2)
      rw [jsMapSet_lookup_other m k k2 [] hne]
      exact hnone k2 (by simp [hk2])
    have := ih (jsMapSet m k []) hnone2 (List.nodup_cons.mp hnd).2
    rw [this, jsMapSet_length_new m k [] h1]
    simp [Nat.add_assoc, Nat.add_comm 1 t.length]

/-- Keys used by the cache-growth counterexample: 101 distinct one-character
strings. -/
def cacheKeys : List String :=
  (List.range 101).map (fun n => String.mk [Char.ofNat (48 + n)])

/-- C7 counterexample: the embedding cache is a plain `Map` with no
capacity check anywhere — 101 `set`s of distinct keys leave 101 entries,
exceeding the putative capacity of 100 (the only capacity-like constant in
the service, which merely caps the exported cache slice). -/
theorem embedding_cache_exceeds_capacity :
    (cacheKeys.foldl (fun m k => jsMapSet m k ([] : Vec)) []).length = 101 ∧
      100 < 101 := by
  refine ⟨?_, by norm_num⟩
  have h := foldl_jsMapSet_fresh cacheKeys [] (fun k2 _ => rfl) (by decide)
  simpa [cacheKeys] using h

/-- C7 amended: the embedding cache is an unbounded insertion-ordered map
with no eviction: `set` of a fresh key grows the entry count by one, `set`
of an existing key overwrites in place keeping the count, no `set` ever
removes another entry, and the written key afterwards holds the written
value — so the entry count can exceed any fixed capacity. -/
theorem embedding_cache_set_no_eviction (m : List (String × Vec)) (k : String)
    (v : Vec) :
    (m.lookup k = none → (jsMapSet m k v).length = m.length + 1) ∧
      ((m.lookup k).isSome = true → (jsMapSet m k v).length = m.length) ∧
      (∀ k2, (m.lookup k2).isSome = true →
        ((jsMapSet m k v).lookup k2).isSome = true) ∧
      (jsMapSet m k v).lookup k = some v :=
  ⟨jsMapSet_length_new m k v, jsMapSet_length_existing m k v,
    fun k2 h => jsMapSet_lookup_preserved m k k2 v h,
    jsMapSet_lookup_self m k v⟩

/-- C7 witness: one fresh and one overwriting `set` on a one-entry cache. -/
theorem embedding_cache_set_no_eviction_witness :
    (jsMapSet [("a", [1])] "b" [2]).length = 2 ∧
      (jsMapSet [("a", [1])] "a" [2]).length = 1 :=
  ⟨(embedding_cache_set_no_eviction [("a", [1])] "b" [2]).1 rfl,
    (embedding_cache_set_no_eviction [("a", [1])] "a" [2]).2.1 rfl⟩

/-- C8 counterexample: a blob whose `metadata.dimensions` (1536) differs
from the configured 3072 but whose version tag is `"1.0"` raises the
version error of line 672, not the dimension error — the version check runs
first. -/
theorem import_bad_version_preempts_dimension_error :
    (importIndex ⟨none, [], false⟩ ragConfig.embeddingDimensions
          ⟨some "1.0", some ⟨some "model", some 1536⟩, "idx", none⟩).2
        = Except.error ImportError.formatError ∧
      Except.error ImportError.formatError
        ≠ (Except.error ImportError.dimensionMismatch :
            Except ImportError (Option ImportMetadata)) := by
  refine ⟨rfl, ?_⟩
  intro h
  injection h with h2
  exact ImportError.noConfusion h2

/-- C8 amended: for every import blob carrying the version tag `"2.0"`
whose `metadata.dimensions` differs from the configured embedding
dimension, `importIndex` raises the dimension-mismatch error and leaves the
state — index, embedding cache and initialization flag — exactly as it
was; a blob with a missing or different version tag instead raises the
format error first, also without mutating state. -/
theorem import_dimension_mismatch_rejected (st : RAGState) (blob : ImportBlob)
    (hv : blob.version = some "2.0")
    (hd : blob.metadata.bind (fun m => m.dimensions)
      ≠ some ragConfig.embeddingDimensions) :
    importIndex st ragConfig.embeddingDimensions blob
      = (st, Except.error ImportError.dimensionMismatch) := by
  unfold importIndex
  rw [if_neg (by simp [hv]), if_pos hd]

/-- C8 witness: a concrete 1536-dimension blob with the right version tag
against the 3072-dimension configuration. -/
theorem import_dimension_mismatch_rejected_witness :
    importIndex ⟨none, [], false⟩ ragConfig.embeddingDimensions
        ⟨some "2.0", some ⟨some "model", some 1536⟩, "idx", none⟩
      = (⟨none, [], false⟩, Except.error ImportError.dimensionMismatch) :=
  import_dimension_mismatch_rejected ⟨none, [], false⟩
    ⟨some "2.0", some ⟨some "model", some 1536⟩, "idx", none⟩ rfl (by decide)

/-- C9: embedding the same text twice in sequence from a cache that does not
yet hold it makes exactly one external call: the first step calls the
endpoint, stores the vector under the text's hash and reports one call; the
second step is a pure cache hit returning the same vector, the same cache,
and zero calls. -/
theorem embed_twice_single_call (cache : List (String × Vec)) (text : String)
    (oracle : String → Vec)
    (hmiss : jsMapGet cache (generateHash text) = none) :
    embedCached cache text oracle
        = (oracle text, jsMapSet cache (generateHash text) (oracle text), 1) ∧
      embedCached (jsMapSet cache (generateHash text) (oracle text)) text oracle
        = (oracle text, jsMapSet cache (generateHash text) (oracle text), 0) := by
  constructor
  · simp only [embedCached, hmiss]
  · simp only [embedCached, jsMapGet, jsMapSet_lookup_self]

/-- C9 witness: embedding `"abc"` twice starting from the empty cache. -/
theorem embed_twice_single_call_witness :
    embedCached [] "abc" (fun _ => [1, 2])
        = ([1, 2], jsMapSet [] (generateHash "abc") [1, 2], 1) ∧
      embedCached (jsMapSet [] (generateHash "abc") [1, 2]) "abc"
          (fun _ => [1, 2])
        = ([1, 2], jsMapSet [] (generateHash "abc") [1, 2], 0) :=
  embed_twice_single_call [] "abc" (fun _ => [1, 2]) rfl

/-- Every index the ranking parser keeps is in range. -/
theorem parseRanking_mem_lt (content : String) (len : Nat) :
    ∀ i ∈ parseRanking content len, i < len := by
  intro i hi
  unfold parseRanking at hi
  rw [List.mem_filterMap] at hi
  obtain ⟨x, _, hfx⟩ := hi
  cases x with
  | none => simp at hfx
  | some n =>
    dsimp only at hfx
    by_cases hcond : 0 ≤ n ∧ n < (len : Int)
    · rw [if_pos hcond] at hfx
      injection hfx with hfx2
      omega
    · rw [if_neg hcond] at hfx
      cases hfx

/-- Indexing a list by in-range positions loses nothing: same length. -/
theorem filterMap_get_length {α : Type} (docs : List α) (r : List Nat)
    (h : ∀ i ∈ r, i < docs.length) :
    (r.filterMap (fun i => docs[i]?)).length = r.length := by
  induction r with
  | nil => rfl
  | cons i t ih =>
    have hi : i < docs.length := h i (by simp)
    obtain ⟨a, ha⟩ : ∃ a, docs[i]? = some a :=
      ⟨docs.get ⟨i, hi⟩, by rw [List.getElem?_eq_getElem hi]; rfl⟩
    simp [List.filterMap_cons, ha, ih (fun j hj => h j (by simp [hj]))]

/-- Indexing a list by in-range positions, position by position. -/
theorem filterMap_get_elem? {α : Type} (docs : List α) (r : List Nat)
    (h : ∀ i ∈ r, i < docs.length) (j : Nat) :
    (r.filterMap (fun i => docs[i]?))[j]?
      = r[j]?.bind (fun i => docs[i]?) := by
  induction r generalizing j with
  | nil => simp
  | cons i t ih =>
    have hi : i < docs.length := h i (by simp)
    obtain ⟨a, ha⟩ : ∃ a, docs[i]? = some a :=
      ⟨docs.get ⟨i, hi⟩, by rw [List.getElem?_eq_getElem hi]; rfl⟩
    cases j with
    | zero => simp [List.filterMap_cons, ha]
    | succ j2 =>
      simp [List.filterMap_cons, ha, ih (fun j3 hj => h j3 (by simp [hj])) j2]

/-- C10: when the reply parses to a non-empty ranking, the re-ranked result
is exactly the documents at the parsed valid indices in parsed order: the
result has one entry per parsed index (`length` equation), and its `j`-th
element is the document at the `j`-th parsed index (`get?` equation) — so
candidates whose index is absent are dropped and repeated indices yield
duplicate entries. -/
theorem rerank_maps_parsed_indices (documents : List Doc) (content : String)
    (hne : parseRanking (jsTrim content) documents.length ≠ []) :
    (rerankDocuments documents (Except.ok content)).length
        = (parseRanking (jsTrim content) documents.length).length ∧
      ∀ j : Nat, (rerankDocuments documents (Except.ok content))[j]?
        = (parseRanking (jsTrim content) documents.length)[j]?.bind
            (fun i => documents[i]?) := by
  have hr : rerankDocuments documents (Except.ok content)
      = (parseRanking (jsTrim content) documents.length).filterMap
          (fun i => documents[i]?) := by
    simp only [rerankDocuments]
    rw [if_neg (by simp [List.isEmpty_iff, hne])]
  rw [hr]
  exact ⟨filterMap_get_length _ _ (parseRanking_mem_lt _ _),
    fun j => filterMap_get_elem? _ _ (parseRanking_mem_lt _ _) j⟩

/-- C10 witness: the reply `"2, 2"` over three candidates parses to the
ranking `[1, 1]`, so the result keeps two (duplicate) entries, not a
permutation of the three candidates. -/
theorem rerank_maps_parsed_indices_witness :
    (rerankDocuments [sampleDoc1, sampleDoc2, sampleDoc3]
        (Except.ok "2, 2")).length = 2 :=
  (rerank_maps_parsed_indices [sampleDoc1, sampleDoc2, sampleDoc3] "2, 2"
    (by decide)).1

end PodcastPoc
